import Mathlib

/-!
Verification development for the `steamy` Steam-market client library.

The two core components singled out by the specification are modelled here as a
shallow embedding:

* `retry_request` — the bounded-retry HTTP wrapper (`retry_request` in
  `steamy/steamy.py`).  A network attempt is modelled by `AttemptOutcome`
  (the action either returns a `Response` or raises a `RequestException`);
  `raise_for_status` raising on HTTP error statuses is modelled by
  `raise_for_status_raises`.  The model additionally counts how many times the
  action was invoked and how many times `time.sleep` ran.

* `parse_item_name` — the market item-name tokenizer
  (`SteamMarketAPI.parse_item_name`).  Python (unicode) strings are modelled as
  lists of code points (`List Nat`).  The Python code can raise
  (`str.replace` called with a single argument, tuple-unpacking of `split`
  results); a raised exception is modelled by the result `none`, a normal
  return by `some`.
-/

/-- Code points of a string literal (the model of a Python unicode string). -/
def codes (s : String) : List Nat := s.toList.map Char.toNat

/-- Python 2 unicode whitespace (for characters kept by the `ord(i) <= 256`
filter): `\t \n \v \f \r`, `\x1c`-`\x1f`, space, `\x85`, `\xa0`.
Models the character class used by `str.strip()`. -/
def pyIsSpace (c : Nat) : Bool :=
  c == 9 || c == 10 || c == 11 || c == 12 || c == 13 ||
  c == 28 || c == 29 || c == 30 || c == 31 || c == 32 ||
  c == 133 || c == 160

/-- Models Python `s.strip()` : drop leading and trailing whitespace. -/
def pyStrip (l : List Nat) : List Nat :=
  ((l.dropWhile pyIsSpace).reverse.dropWhile pyIsSpace).reverse

/-- Models Python `.lower()` on one code point (ASCII `A`-`Z` and the Latin-1
uppercase range `À`-`Þ` except `×`; all other kept code points are unchanged). -/
def pyLowerChar (c : Nat) : Nat :=
  if (65 ≤ c ∧ c ≤ 90) ∨ (192 ≤ c ∧ c ≤ 222 ∧ c ≠ 215) then c + 32 else c

/-- Models Python `s.lower()`. -/
def pyLower (l : List Nat) : List Nat := l.map pyLowerChar

/-- Models the Python `in` test for strings: `sub in l` (substring test). -/
def containsSub (sub : List Nat) : List Nat → Bool
  | [] => sub.isEmpty
  | c :: rest => List.isPrefixOf sub (c :: rest) || containsSub sub rest

/-- Models Python `s.split(sep, maxsplit)` for a single-character separator
`s0`: the first argument is the remaining number of splits allowed. -/
def pySplitCharN (s0 : Nat) : Nat → List Nat → List Nat → List (List Nat)
  | _, [], acc => [acc.reverse]
  | 0, c :: rest, acc => [acc.reverse ++ c :: rest]
  | n + 1, c :: rest, acc =>
    if c == s0 then
      acc.reverse :: pySplitCharN s0 n rest []
    else
      pySplitCharN s0 (n + 1) rest (c :: acc)

/-- Models Python `s.split(sep)` (no maxsplit) for a single-character
separator: a string of length `len(s)` can be split at most `len(s)` times,
so a budget of `l.length` never caps the number of splits. -/
def pySplitChar (s0 : Nat) (l : List Nat) : List (List Nat) :=
  pySplitCharN s0 l.length l []

/-- Scanner for Python `s.split(" | ")` (the only multi-character separator
used by `parse_item_name`): scan left to right, splitting at each
non-overlapping occurrence of space, pipe, space. -/
def pySplitSpacedPipeAux : List Nat → List Nat → List (List Nat)
  | [], acc => [acc.reverse]
  | 32 :: 124 :: 32 :: rest, acc => acc.reverse :: pySplitSpacedPipeAux rest []
  | c :: rest, acc => pySplitSpacedPipeAux rest (c :: acc)

/-- Models Python `s.split(" | ")`. -/
def pySplitOnSpacedPipe (l : List Nat) : List (List Nat) :=
  pySplitSpacedPipeAux l []

/-- Models Python's `[-1]` indexing on the (always non-empty) result of
`split`. -/
def pyLast (ls : List (List Nat)) : List Nat := ls.getLastD []

/-- Models `filter(lambda i: ord(i) <= 256, name)` (line 282):
keep only low code points. -/
def filterLow (l : List Nat) : List Nat := l.filter (fun c => decide (c ≤ 256))

/-- Models the final normalization `r.lower().strip() or None` applied to
`r_item`, `r_skin` and `r_wear` (lines 326-333). -/
def normField (l : List Nat) : Option (List Nat) :=
  if (pyStrip (pyLower l)).isEmpty then none else some (pyStrip (pyLower l))

/-- The structured record produced by `parse_item_name` (the tuple returned at
lines 326-333, with the spec's field names). -/
structure ParsedItemName where
  category : Option (List Nat)
  skin : Option (List Nat)
  wear : Option (List Nat)
  isStatTrak : Bool
  isHolographic : Bool
  isMusicKit : Bool
deriving DecidableEq

/-- Build the result tuple: normalization applied to the three string fields,
the flags passed through. -/
def mkParsed (item skin wear : List Nat) (stat holo mkit : Bool) : ParsedItemName :=
  ⟨normField item, normField skin, normField wear, stat, holo, mkit⟩

/-- A returned string field is absent or a non-empty string fixed by
lowercasing and by whitespace-trimming. -/
def fieldOK : Option (List Nat) → Prop
  | none => True
  | some s => s ≠ [] ∧ pyLower s = s ∧ pyStrip s = s

/-- The general (non-Sticker, non-Music-Kit) branch of `parse_item_name`
(lines 304-321), taking `start` and the optional `end` part.
`end.split("(")` unpacked into two variables raises `ValueError` unless the
split has exactly two parts; a raise is modelled by `none`. -/
def generalCase (start : List Nat) (e : Option (List Nat)) : Option ParsedItemName :=
  let stat := List.isPrefixOf (codes "StatTrak") (pyStrip start)
  let r_item := if stat then pyLast (pySplitCharN 32 2 start []) else pyStrip start
  match e with
  | some l =>
    if l.isEmpty then
      some (mkParsed r_item [] [] stat false false)
    else
      match pySplitChar 40 l with
      | [sk, ext] => some (mkParsed r_item sk (ext.filter (fun c => c != 41)) stat false false)
      | _ => none
  | none => some (mkParsed r_item [] [] stat false false)

/-- Model of `SteamMarketAPI.parse_item_name` (lines 280-333).
`none` models an uncaught Python exception:
* in the Sticker branch, `r_skin.replace("(holo)")` is called with a single
  argument, which raises `TypeError` whenever `"(holo)" in r_skin`;
* in the general branch, `start, end = name.split(" | ")` raises `ValueError`
  unless the split yields exactly two parts, and likewise for
  `r_skin, ext = end.split("(")`. -/
def parse_item_name (name0 : List Nat) : Option ParsedItemName :=
  let name := filterLow name0
  if List.isPrefixOf (codes "Sticker") (pyStrip name) then
    let r_skin := pyLast (pySplitCharN 124 1 name [])
    if containsSub (codes "(holo)") r_skin then
      none
    else if containsSub [124] r_skin then
      match pySplitCharN 124 1 r_skin [] with
      | [a, b] => some (mkParsed (codes "sticker") a b false false false)
      | _ => none
    else
      some (mkParsed (codes "sticker") r_skin [] false false false)
  else if List.isPrefixOf (codes "Music Kit") (pyStrip name) then
    some (mkParsed (codes "musickit") (pyLast (pySplitCharN 124 1 name [])) [] false false true)
  else if containsSub [124] name then
    match pySplitOnSpacedPipe name with
    | [start, e] => generalCase start (some e)
    | _ => none
  else
    generalCase name none

/-- An HTTP response as seen by `retry_request`: its status code and an
abstract payload identifier. -/
structure Response where
  status : Nat
  body : Nat
deriving DecidableEq

/-- The outcome of one invocation of the caller-supplied action `f(requests)`:
it either returns a response or raises a `RequestException`. -/
inductive AttemptOutcome where
  | ok (r : Response)
  | exn
deriving DecidableEq

/-- Models `requests.Response.raise_for_status()`: raises `HTTPError` exactly
for client-error and server-error status codes. -/
def raise_for_status_raises (r : Response) : Bool :=
  decide (400 ≤ r.status ∧ r.status < 600)

/-- An attempt counts as failed when the action raised, or returned a response
whose status makes `raise_for_status` raise — exactly the exceptions caught by
the `except (RequestException, HTTPError)` clause. -/
def attempt_fails (o : AttemptOutcome) : Bool :=
  match o with
  | AttemptOutcome.ok r => raise_for_status_raises r
  | AttemptOutcome.exn => true

/-- Observable outcome of `retry_request`: the returned value (`None` on
exhaustion), the number of times the action was invoked, and the number of
times `time.sleep(delay)` ran. -/
structure RetryResult where
  result : Option Response
  invocations : Nat
  sleeps : Nat
deriving DecidableEq

/-- The `for _ in range(count)` loop of `retry_request` (lines 28-36); the
action is given the (0-based) index of the current attempt so that a run of
distinct attempts can be modelled.  Each failed attempt logs and sleeps (the
sleep is inside the `except` block, so it also runs on the last attempt);
a successful attempt returns immediately. -/
def retry_loop (f : Nat → AttemptOutcome) : Nat → Nat → RetryResult
  | 0, _ => ⟨none, 0, 0⟩
  | Nat.succ n, i =>
    match f i with
    | AttemptOutcome.ok r =>
      if raise_for_status_raises r then
        let q := retry_loop f n (i + 1)
        ⟨q.result, q.invocations + 1, q.sleeps + 1⟩
      else
        ⟨some r, 1, 0⟩
    | AttemptOutcome.exn =>
      let q := retry_loop f n (i + 1)
      ⟨q.result, q.invocations + 1, q.sleeps + 1⟩

/-- Model of `retry_request(f, count, delay)` (lines 27-36), observing the
result, the invocation count and the sleep count. -/
def retry_request (f : Nat → AttemptOutcome) (count : Nat) : RetryResult :=
  retry_loop f count 0

/-- The default of the `count` parameter in `def retry_request(f, count=1, delay=60)`. -/
def retry_request_default_count : Nat := 1

/-- The default of the `delay` parameter of `retry_request` (seconds). -/
def retry_request_default_delay : Nat := 60

/-- The default of the `retries` parameter stored by
`SteamMarketAPI.__init__(self, appid, key=None, retries=5)` (line 261). -/
def market_default_retries : Nat := 5

/-- `SteamMarketAPI.get_inventory` (lines 267-278) calls
`retry_request(lambda f: f.get(url, ...))` passing no `count` argument, so the
wrapper runs with its own default attempt count — `self.retries` is never
passed along. -/
def get_inventory_retry (f : Nat → AttemptOutcome) : RetryResult :=
  retry_request f retry_request_default_count

/-- `List.dropWhile` on a cons, as an `if`. -/
theorem dropWhile_cons_eq (p : Nat → Bool) (a : Nat) (l : List Nat) :
    (a :: l).dropWhile p = if p a then l.dropWhile p else a :: l := by
  cases hp : p a <;> simp [List.dropWhile, hp]

/-- Dropping a satisfied prefix twice is the same as dropping it once. -/
theorem dropWhile_idem (p : Nat → Bool) (l : List Nat) :
    (l.dropWhile p).dropWhile p = l.dropWhile p := by
  induction l with
  | nil => rfl
  | cons a t ih =>
    rw [dropWhile_cons_eq]
    by_cases h : p a
    · rw [if_pos h]; exact ih
    · rw [if_neg h, dropWhile_cons_eq, if_neg h]

/-- `dropWhile` returns a suffix of its input. -/
theorem exists_dropWhile_append (p : Nat → Bool) (l : List Nat) :
    ∃ m, l = m ++ l.dropWhile p := by
  induction l with
  | nil => exact ⟨[], rfl⟩
  | cons a t ih =>
    by_cases h : p a
    · obtain ⟨m, hm⟩ := ih
      refine ⟨a :: m, ?_⟩
      rw [dropWhile_cons_eq, if_pos h, List.cons_append]
      exact congrArg (List.cons a) hm
    · exact ⟨[], by rw [dropWhile_cons_eq, if_neg h]; simp⟩

/-- If the left side of a list is already stripped, stripping the right side
(through a double reverse) leaves the left side stripped. -/
theorem strip_left_stable (p : Nat → Bool) (w : List Nat) (hw : w.dropWhile p = w) :
    ((w.reverse.dropWhile p).reverse).dropWhile p = (w.reverse.dropWhile p).reverse := by
  cases w with
  | nil => rfl
  | cons c t =>
    have hc : p c = false := by
      rw [dropWhile_cons_eq] at hw
      by_cases h : p c
      · rw [if_pos h] at hw
        obtain ⟨m, hm⟩ := exists_dropWhile_append p t
        rw [hw] at hm
        have := congrArg List.length hm
        simp [List.length_append] at this
        omega
      · simpa using h
    obtain ⟨m, hm⟩ := exists_dropWhile_append p (c :: t).reverse
    cases hs : ((c :: t).reverse.dropWhile p).reverse with
    | nil => rfl
    | cons c' u =>
      rw [dropWhile_cons_eq]
      have h2 : c :: t = (c' :: u) ++ m.reverse := by
        have h3 := congrArg List.reverse hm
        rw [List.reverse_reverse, List.reverse_append, hs] at h3
        exact h3
      have hc' : c' = c := by
        rw [List.cons_append] at h2
        exact (List.cons.inj h2.symm).1
      rw [hc', hc]
      simp

/-- Stripping both sides is idempotent. -/
theorem pyStrip_idem (l : List Nat) : pyStrip (pyStrip l) = pyStrip l := by
  have h1 : (pyStrip l).dropWhile pyIsSpace = pyStrip l := by
    unfold pyStrip
    exact strip_left_stable pyIsSpace (l.dropWhile pyIsSpace) (dropWhile_idem pyIsSpace l)
  show (((pyStrip l).dropWhile pyIsSpace).reverse.dropWhile pyIsSpace).reverse = pyStrip l
  rw [h1]
  have h2 : (pyStrip l).reverse = (l.dropWhile pyIsSpace).reverse.dropWhile pyIsSpace := by
    show ((((l.dropWhile pyIsSpace).reverse.dropWhile pyIsSpace)).reverse).reverse = _
    rw [List.reverse_reverse]
  rw [h2, dropWhile_idem]
  rfl

/-- Lowercasing never turns a character into whitespace or vice versa. -/
theorem pyIsSpace_lower (c : Nat) : pyIsSpace (pyLowerChar c) = pyIsSpace c := by
  unfold pyLowerChar
  split
  · rename_i h
    rw [Bool.eq_iff_iff]
    simp only [pyIsSpace, Bool.or_eq_true, beq_iff_eq]
    constructor <;> intro h2 <;> omega
  · rfl

/-- `lower` commutes with dropping leading whitespace. -/
theorem pyLower_dropWhile (l : List Nat) :
    (pyLower l).dropWhile pyIsSpace = pyLower (l.dropWhile pyIsSpace) := by
  induction l with
  | nil => rfl
  | cons c t ih =>
    simp only [pyLower, List.map_cons] at ih ⊢
    rw [dropWhile_cons_eq, dropWhile_cons_eq, pyIsSpace_lower]
    by_cases h : pyIsSpace c
    · rw [if_pos h, if_pos h]; exact ih
    · rw [if_neg h, if_neg h]; simp

/-- `lower` commutes with `reverse`. -/
theorem pyLower_reverse (l : List Nat) : pyLower l.reverse = (pyLower l).reverse := by
  simp [pyLower]

/-- `lower` commutes with `strip`. -/
theorem pyLower_pyStrip (l : List Nat) : pyLower (pyStrip l) = pyStrip (pyLower l) := by
  unfold pyStrip
  rw [pyLower_reverse, ← pyLower_dropWhile, pyLower_reverse, ← pyLower_dropWhile]

/-- Lowercasing one character is idempotent. -/
theorem pyLowerChar_idem (c : Nat) : pyLowerChar (pyLowerChar c) = pyLowerChar c := by
  unfold pyLowerChar
  split
  · rename_i h
    rw [if_neg (by omega)]
  · rfl

/-- Lowercasing a string is idempotent. -/
theorem pyLower_idem (l : List Nat) : pyLower (pyLower l) = pyLower l := by
  induction l with
  | nil => rfl
  | cons c t ih =>
    simp only [pyLower, List.map_cons] at ih ⊢
    rw [pyLowerChar_idem]
    exact congrArg _ ih

/-- Every normalized field satisfies the field invariant. -/
theorem normField_fieldOK (l : List Nat) : fieldOK (normField l) := by
  unfold normField
  by_cases h : (pyStrip (pyLower l)).isEmpty
  · rw [if_pos h]; trivial
  · rw [if_neg h]
    refine ⟨?_, ?_, ?_⟩
    · intro he
      exact h (by rw [he]; rfl)
    · rw [pyLower_pyStrip, pyLower_idem]
    · exact pyStrip_idem _

/-- Splitting on space with remaining budget `n + 1`: a space-free token
followed by a space is cut off as one part. -/
theorem pySplitCharN_space : ∀ (t0 : List Nat), containsSub [32] t0 = false →
    ∀ (n : Nat) (l acc : List Nat),
    pySplitCharN 32 (n + 1) (t0 ++ 32 :: l) acc
      = (acc.reverse ++ t0) :: pySplitCharN 32 n l []
  | [], _, n, l, acc => by simp [pySplitCharN]
  | c :: t, h, n, l, acc => by
    have hc : (c == 32) = false := by
      have hne : ¬ c = 32 := by
        intro hcc
        subst hcc
        simp [containsSub, List.isPrefixOf] at h
      simpa using hne
    have ht : containsSub [32] t = false := by
      simp only [containsSub, Bool.or_eq_false_iff] at h
      exact h.2
    have ihe := pySplitCharN_space t ht n l (c :: acc)
    rw [List.cons_append]
    show pySplitCharN 32 (n + 1) (c :: (t ++ 32 :: l)) acc = _
    simp only [pySplitCharN, hc, Bool.false_eq_true, if_false]
    rw [ihe]
    simp

/-- Splitting with an exhausted budget returns the whole string. -/
theorem pySplitCharN_zero (l : List Nat) : pySplitCharN 32 0 l [] = [l] := by
  cases l <;> simp [pySplitCharN]

/-- `start.split(" ", 2)` on a string made of two space-free tokens and a
remainder yields exactly those three parts. -/
theorem pySplitCharN_two (t0 t1 rest : List Nat)
    (h0 : containsSub [32] t0 = false) (h1 : containsSub [32] t1 = false) :
    pySplitCharN 32 2 (t0 ++ 32 :: (t1 ++ 32 :: rest)) [] = [t0, t1, rest] := by
  have a := pySplitCharN_space t0 h0 1 (t1 ++ 32 :: rest) []
  have b := pySplitCharN_space t1 h1 0 rest []
  have c := pySplitCharN_zero rest
  simp only [List.reverse_nil, List.nil_append] at a b
  rw [show (2 : Nat) = 1 + 1 from rfl, a, b, c]

/-- When every attempt fails, the loop exhausts its budget: no result, one
invocation and one sleep per allowed attempt. -/
theorem retry_loop_all_fail (f : Nat → AttemptOutcome)
    (hf : ∀ k, attempt_fails (f k) = true) :
    ∀ n i, retry_loop f n i = ⟨none, n, n⟩ := by
  intro n
  induction n with
  | zero => intro i; rfl
  | succ m ih =>
    intro i
    have hfi := hf i
    cases hc : f i with
    | ok r =>
      have hr : raise_for_status_raises r = true := by
        rw [hc] at hfi
        simpa [attempt_fails] using hfi
      simp [retry_loop, hc, hr, ih]
    | exn => simp [retry_loop, hc, ih]

/-- If the first `k` attempts starting at index `i` fail and attempt `i + k`
succeeds within the budget, the loop stops right there with the successful
response, `k + 1` invocations and `k` sleeps. -/
theorem retry_loop_first_success (f : Nat → AttemptOutcome) (r : Response)
    (hr : raise_for_status_raises r = false) :
    ∀ k n i, k + 1 ≤ n →
      (∀ j, j < k → attempt_fails (f (i + j)) = true) →
      f (i + k) = AttemptOutcome.ok r →
      retry_loop f n i = ⟨some r, k + 1, k⟩ := by
  intro k
  induction k with
  | zero =>
    intro n i hn hfail hok
    obtain ⟨m, rfl⟩ : ∃ m, n = m + 1 := ⟨n - 1, by omega⟩
    have hok' : f i = AttemptOutcome.ok r := by simpa using hok
    simp [retry_loop, hok', hr]
  | succ k ih =>
    intro n i hn hfail hok
    obtain ⟨m, rfl⟩ : ∃ m, n = m + 1 := ⟨n - 1, by omega⟩
    have h0 : attempt_fails (f i) = true := by simpa using hfail 0 (by omega)
    have hrec : retry_loop f m (i + 1) = ⟨some r, k + 1, k⟩ := by
      apply ih m (i + 1) (by omega)
      · intro j hj
        have hjf := hfail (j + 1) (by omega)
        rw [show i + (j + 1) = i + 1 + j by omega] at hjf
        exact hjf
      · rw [show i + 1 + k = i + (k + 1) by omega]
        exact hok
    cases hc : f i with
    | ok r0 =>
      have hr0 : raise_for_status_raises r0 = true := by
        rw [hc] at h0
        simpa [attempt_fails] using h0
      simp [retry_loop, hc, hr0, hrec]
    | exn => simp [retry_loop, hc, hrec]

/-- `pyLast` of a three-element list. -/
theorem pyLast_three (a b c : List Nat) : pyLast [a, b, c] = c := rfl

/-- Every defined result of the general branch is a `mkParsed` record with the
holo and music-kit flags off. -/
theorem generalCase_shape (s : List Nat) (e : Option (List Nat)) (r : ParsedItemName)
    (h : generalCase s e = some r) :
    ∃ it a b st, r = mkParsed it a b st false false := by
  cases e with
  | none =>
    simp only [generalCase] at h
    exact ⟨_, _, _, _, (Option.some.inj h).symm⟩
  | some l =>
    simp only [generalCase] at h
    split at h
    · exact ⟨_, _, _, _, (Option.some.inj h).symm⟩
    · split at h
      · exact ⟨_, _, _, _, (Option.some.inj h).symm⟩
      · exact Option.noConfusion h

/-- Every defined result of `parse_item_name` comes from one of the three
dispatch branches. -/
theorem parse_shape (name : List Nat) (r : ParsedItemName)
    (h : parse_item_name name = some r) :
    (∃ a b, r = mkParsed (codes "sticker") a b false false false) ∨
    (∃ a, r = mkParsed (codes "musickit") a [] false false true) ∨
    (∃ it a b st, r = mkParsed it a b st false false) := by
  simp only [parse_item_name] at h
  split at h
  · split at h
    · exact Option.noConfusion h
    · split at h
      · split at h
        · exact Or.inl ⟨_, _, (Option.some.inj h).symm⟩
        · exact Option.noConfusion h
      · exact Or.inl ⟨_, _, (Option.some.inj h).symm⟩
  · split at h
    · exact Or.inr (Or.inl ⟨_, (Option.some.inj h).symm⟩)
    · split at h
      · split at h
        · exact Or.inr (Or.inr (generalCase_shape _ _ _ h))
        · exact Option.noConfusion h
      · exact Or.inr (Or.inr (generalCase_shape _ _ _ h))

/-- C1: the spec says `parse_item_name` never raises for any input string, but
for the input `"a|b"` (a pipe not surrounded by spaces) the assignment
`start, end = name.split(" | ")` unpacks a one-element list and raises
`ValueError`; the model therefore yields `none` (an exception), not a record. -/
theorem parse_item_name_raises_on_bare_pipe :
    parse_item_name (codes "a|b") = none := by rfl

/-- C2 counterexample: on `"StatTrak™ Desert Eagle | Blaze (Factory New)"` the
code computes `start.split(" ", 2)[-1]`, dropping the first two space-separated
tokens `StatTrak` (after the `™` is stripped) and `Desert`, so the category is
`"eagle"` — not `"desert eagle"` as the claim states. -/
theorem parse_item_name_stattrak_category_cex :
    (parse_item_name (codes "StatTrak™ Desert Eagle | Blaze (Factory New)")).map
        ParsedItemName.category = some (some (codes "eagle"))
    ∧ (some (some (codes "eagle")) : Option (Option (List Nat)))
        ≠ some (some (codes "desert eagle")) :=
  ⟨rfl, by decide⟩

/-- C2 (amended): `parse_item_name("StatTrak™ Desert Eagle | Blaze (Factory
New)")` returns category `"eagle"`, skin `"blaze"`, wear `"factory new"` and
`isStatTrak = true`; in general, in the piped general case, when `start`
(after characters above code point 256 are stripped) begins with `"StatTrak"`
and consists of two single-space-delimited space-free tokens followed by a
remainder, the category is that remainder, normalized — i.e. `start` with its
first two space-delimited tokens removed. -/
theorem parse_item_name_stattrak_drops_two_tokens :
    parse_item_name (codes "StatTrak™ Desert Eagle | Blaze (Factory New)")
      = some ⟨some (codes "eagle"), some (codes "blaze"), some (codes "factory new"),
          true, false, false⟩
    ∧ ∀ (name t0 t1 rest e : List Nat) (r : ParsedItemName),
        List.isPrefixOf (codes "Sticker") (pyStrip (filterLow name)) = false →
        List.isPrefixOf (codes "Music Kit") (pyStrip (filterLow name)) = false →
        containsSub [124] (filterLow name) = true →
        pySplitOnSpacedPipe (filterLow name) = [t0 ++ 32 :: (t1 ++ 32 :: rest), e] →
        containsSub [32] t0 = false →
        containsSub [32] t1 = false →
        List.isPrefixOf (codes "StatTrak") (pyStrip (t0 ++ 32 :: (t1 ++ 32 :: rest))) = true →
        parse_item_name name = some r →
        r.isStatTrak = true ∧ r.category = normField rest := by
  constructor
  · rfl
  · intro name t0 t1 rest e r hs hm hp hsp h0 h1 hst hpr
    simp only [parse_item_name, hs, hm, hp, hsp, Bool.false_eq_true, if_false, if_true] at hpr
    have hsplit2 := pySplitCharN_two t0 t1 rest h0 h1
    simp only [generalCase, hst, if_true, hsplit2, pyLast_three] at hpr
    split at hpr
    · have hr := (Option.some.inj hpr).symm
      subst hr
      exact ⟨rfl, rfl⟩
    · split at hpr
      · have hr := (Option.some.inj hpr).symm
        subst hr
        exact ⟨rfl, rfl⟩
      · exact Option.noConfusion hpr

/-- C2 witness: a concrete run through the amended general rule, on
`"StatTrak™ M4A1-S Hyper Beast | Searing Rage (Factory New)"`, whose `start`
splits into `StatTrak`, `M4A1-S` and the remainder `Hyper Beast`. -/
theorem parse_item_name_stattrak_drops_two_tokens_witness :
    (⟨some (codes "hyper beast"), some (codes "searing rage"), some (codes "factory new"),
        true, false, false⟩ : ParsedItemName).isStatTrak = true
    ∧ (⟨some (codes "hyper beast"), some (codes "searing rage"), some (codes "factory new"),
        true, false, false⟩ : ParsedItemName).category = normField (codes "Hyper Beast") :=
  parse_item_name_stattrak_drops_two_tokens.2
    (codes "StatTrak™ M4A1-S Hyper Beast | Searing Rage (Factory New)")
    (codes "StatTrak") (codes "M4A1-S") (codes "Hyper Beast")
    (codes "Searing Rage (Factory New)")
    ⟨some (codes "hyper beast"), some (codes "searing rage"), some (codes "factory new"),
        true, false, false⟩
    rfl rfl rfl rfl rfl rfl rfl rfl

/-- C3 counterexample: the claim expects `"Sticker | Crown (Foil)"` to be split
into skin `"crown"` and wear `"foil"`, but the Sticker branch only splits the
remainder at a second pipe and never at parentheses, so the parse result
differs from the claimed record. -/
theorem parse_item_name_sticker_wear_cex :
    parse_item_name (codes "Sticker | Crown (Foil)")
      ≠ some ⟨some (codes "sticker"), some (codes "crown"), some (codes "foil"),
          false, false, false⟩ := by decide

/-- C3 (amended): `parse_item_name("Sticker | Crown (Foil)")` returns category
`"sticker"`, skin `"crown (foil)"` (the whole post-pipe remainder, including
the parenthesized part), wear absent, and `isHolographic = false`. -/
theorem parse_item_name_sticker_example :
    parse_item_name (codes "Sticker | Crown (Foil)")
      = some ⟨some (codes "sticker"), some (codes "crown (foil)"), none,
          false, false, false⟩ := by rfl

/-- C4: the claim (and the spec) say a holo sticker has `"(holo)"` removed and
`isHolographic` set, but the code executes `r_skin.replace("(holo)")` — with
the required second argument missing — so `"Sticker | Howling Dawn (holo)"`
raises `TypeError` (modelled by `none`) instead of returning a record. -/
theorem parse_item_name_holo_sticker_raises :
    parse_item_name (codes "Sticker | Howling Dawn (holo)") = none := by rfl

/-- C5: `SteamMarketAPI.__init__` stores `retries=5`, but no request method
ever passes it to `retry_request`, whose own default is `count=1`; so a
market-scoped request (here `get_inventory`) invokes an always-failing action
exactly once, not five times. -/
theorem get_inventory_single_attempt :
    (get_inventory_retry (fun _ => AttemptOutcome.exn)).invocations = 1
    ∧ retry_request_default_count = 1
    ∧ market_default_retries = 5
    ∧ (get_inventory_retry (fun _ => AttemptOutcome.exn)).invocations
        ≠ market_default_retries :=
  ⟨rfl, rfl, rfl, by decide⟩

/-- C6 counterexample: `time.sleep(delay)` is inside the `except` block, so it
also runs after the last allowed attempt: with `maxAttempts = 1` and an
always-failing action there is `1` sleep, not `1 - 1 = 0` as the claim
states. -/
theorem retry_request_sleeps_after_last_attempt :
    (retry_request (fun _ => AttemptOutcome.exn) 1).sleeps = 1
    ∧ (1 : Nat) ≠ 1 - 1 :=
  ⟨rfl, by decide⟩

/-- C6 (amended): every failed attempt — including the last allowed one — is
followed by a sleep of `delaySeconds`, so an exhausting run with
`maxAttempts = N` performs exactly `N` sleeps before returning no result. -/
theorem retry_request_exhaustion_sleeps (f : Nat → AttemptOutcome) (N : Nat)
    (hf : ∀ k, attempt_fails (f k) = true) :
    (retry_request f N).sleeps = N ∧ (retry_request f N).result = none := by
  unfold retry_request
  rw [retry_loop_all_fail f hf N 0]
  exact ⟨rfl, rfl⟩

/-- C6 witness: an always-raising action with two allowed attempts sleeps
twice and returns no result. -/
theorem retry_request_exhaustion_sleeps_witness :
    (retry_request (fun _ => AttemptOutcome.exn) 2).sleeps = 2
    ∧ (retry_request (fun _ => AttemptOutcome.exn) 2).result = none :=
  retry_request_exhaustion_sleeps (fun _ => AttemptOutcome.exn) 2 (fun _ => rfl)

/-- C7: for every action failing on every invocation and every
`maxAttempts = N ≥ 1`, `retry_request` returns an absent result — it never
raises, since both `RequestException` and `HTTPError` are caught — after
invoking the action exactly `N` times. -/
theorem retry_request_exhaustion_returns_none (f : Nat → AttemptOutcome) (N : Nat)
    (hN : 1 ≤ N) (hf : ∀ k, attempt_fails (f k) = true) :
    (retry_request f N).result = none ∧ (retry_request f N).invocations = N := by
  unfold retry_request
  rw [retry_loop_all_fail f hf N 0]
  exact ⟨rfl, rfl⟩

/-- C7 witness: an always-raising action with three allowed attempts returns
no result after exactly three invocations. -/
theorem retry_request_exhaustion_returns_none_witness :
    (retry_request (fun _ => AttemptOutcome.exn) 3).result = none
    ∧ (retry_request (fun _ => AttemptOutcome.exn) 3).invocations = 3 :=
  retry_request_exhaustion_returns_none (fun _ => AttemptOutcome.exn) 3 (by decide)
    (fun _ => rfl)

/-- C8: if the k-th invocation (k ≤ maxAttempts) is the first to succeed,
`retry_request` returns that successful response after exactly `k`
invocations (and `k - 1` sleeps) — no further attempts occur after a
success. -/
theorem retry_request_first_success (f : Nat → AttemptOutcome) (N k : Nat)
    (r : Response) (hk : 1 ≤ k) (hkN : k ≤ N)
    (hfail : ∀ j, j + 1 < k → attempt_fails (f j) = true)
    (hok : f (k - 1) = AttemptOutcome.ok r)
    (hr : raise_for_status_raises r = false) :
    retry_request f N = ⟨some r, k, k - 1⟩ := by
  obtain ⟨q, rfl⟩ : ∃ q, k = q + 1 := ⟨k - 1, by omega⟩
  unfold retry_request
  have h := retry_loop_first_success f r hr q N 0 (by omega)
    (fun j hj => by simpa using hfail j (by omega))
    (by simpa using hok)
  simpa using h

/-- C8 witness: an action that fails twice and then succeeds, with
`maxAttempts = 3`, yields the successful response after exactly 3 invocations
and 2 sleeps. -/
theorem retry_request_first_success_witness :
    retry_request (fun i => if i < 2 then AttemptOutcome.exn else AttemptOutcome.ok ⟨200, 7⟩) 3
      = ⟨some ⟨200, 7⟩, 3, 2⟩ :=
  retry_request_first_success
    (fun i => if i < 2 then AttemptOutcome.exn else AttemptOutcome.ok ⟨200, 7⟩)
    3 3 ⟨200, 7⟩ (by decide) (by decide)
    (fun j hj => by
      have hj2 : j < 2 := by omega
      simp [hj2, attempt_fails])
    rfl rfl

/-- C9: whenever `parse_item_name` returns, each of category, skin and wear is
either absent or a non-empty string equal to its own lowercased,
whitespace-trimmed form — never the empty string (the `or None` normalization
at lines 326-333). -/
theorem parse_item_name_fields_normalized (name : List Nat) (r : ParsedItemName)
    (h : parse_item_name name = some r) :
    fieldOK r.category ∧ fieldOK r.skin ∧ fieldOK r.wear := by
  rcases parse_shape name r h with ⟨a, b, rfl⟩ | ⟨a, rfl⟩ | ⟨it, a, b, st, rfl⟩
  · exact ⟨normField_fieldOK (codes "sticker"), normField_fieldOK a, normField_fieldOK b⟩
  · exact ⟨normField_fieldOK (codes "musickit"), normField_fieldOK a, normField_fieldOK []⟩
  · exact ⟨normField_fieldOK it, normField_fieldOK a, normField_fieldOK b⟩

/-- C9 witness: the record parsed from `"AK-47 | Redline (Field-Tested)"`
satisfies the field invariant. -/
theorem parse_item_name_fields_normalized_witness :
    fieldOK (some (codes "ak-47")) ∧ fieldOK (some (codes "redline"))
    ∧ fieldOK (some (codes "field-tested")) :=
  parse_item_name_fields_normalized (codes "AK-47 | Redline (Field-Tested)")
    ⟨some (codes "ak-47"), some (codes "redline"), some (codes "field-tested"),
      false, false, false⟩ rfl

/-- C10: whenever `parse_item_name` returns, at most one of the three flags is
set; `isMusicKit` implies category `"musickit"` and absent wear; and
`isHolographic` implies category `"sticker"` (in fact the only branch setting
`isHolographic` raises before returning, so no returned record has it set). -/
theorem parse_item_name_flags_exclusive (name : List Nat) (r : ParsedItemName)
    (h : parse_item_name name = some r) :
    (¬(r.isStatTrak = true ∧ r.isHolographic = true))
    ∧ (¬(r.isStatTrak = true ∧ r.isMusicKit = true))
    ∧ (¬(r.isHolographic = true ∧ r.isMusicKit = true))
    ∧ (r.isMusicKit = true → r.category = some (codes "musickit") ∧ r.wear = none)
    ∧ (r.isHolographic = true → r.category = some (codes "sticker")) := by
  rcases parse_shape name r h with ⟨a, b, rfl⟩ | ⟨a, rfl⟩ | ⟨it, a, b, st, rfl⟩
  · exact ⟨fun hx => Bool.noConfusion hx.1, fun hx => Bool.noConfusion hx.1,
      fun hx => Bool.noConfusion hx.1, fun hx => Bool.noConfusion hx,
      fun hx => Bool.noConfusion hx⟩
  · refine ⟨fun hx => Bool.noConfusion hx.1, fun hx => Bool.noConfusion hx.1,
      fun hx => Bool.noConfusion hx.1, fun _ => ⟨?_, rfl⟩,
      fun hx => Bool.noConfusion hx⟩
    show normField (codes "musickit") = some (codes "musickit")
    decide
  · exact ⟨fun hx => Bool.noConfusion hx.2, fun hx => Bool.noConfusion hx.2,
      fun hx => Bool.noConfusion hx.1, fun hx => Bool.noConfusion hx,
      fun hx => Bool.noConfusion hx⟩

/-- C10 witness: the record parsed from `"Music Kit | Bob, Rockets"` (the only
kind of record with a flag set that is reachable together with a category)
satisfies the exclusivity and implication properties. -/
theorem parse_item_name_flags_exclusive_witness :
    (¬((false : Bool) = true ∧ (false : Bool) = true))
    ∧ (¬((false : Bool) = true ∧ (true : Bool) = true))
    ∧ (¬((false : Bool) = true ∧ (true : Bool) = true))
    ∧ ((true : Bool) = true →
        (some (codes "musickit") : Option (List Nat)) = some (codes "musickit")
        ∧ (none : Option (List Nat)) = none)
    ∧ ((false : Bool) = true →
        (some (codes "musickit") : Option (List Nat)) = some (codes "sticker")) :=
  parse_item_name_flags_exclusive (codes "Music Kit | Bob, Rockets")
    ⟨some (codes "musickit"), some (codes "bob, rockets"), none, false, false, true⟩ rfl
